import Mathlib

/-!
Verification of the interactive PR-selection tool (`main.go`).

Strings are modelled as `List Char` (Go strings iterated as runes).
Terminal display widths are modelled after the `go-runewidth` library's
default condition: each rune contributes 0, 1 or 2 cells; `StringWidth`
sums the contributions, `Truncate` keeps the longest prefix fitting a
budget (Go `int`, so `Int` here) and appends the tail, `FillRight` pads
with single-width spaces.  ANSI styling (`lipgloss`) only wraps text in
escape sequences and never changes the visible cell content, so styled
rendering is modelled as the identity on the visible text.
-/

namespace GhPo

/-- Model of `runewidth.RuneWidth` (default condition, East-Asian off) on the
rune ranges relevant here: controls and combining marks are width 0, CJK /
fullwidth blocks are width 2, everything else width 1. -/
def runeWidth (c : Char) : Nat :=
  if c.toNat < 0x20 then 0
  else if c.toNat = 0x7F then 0
  else if 0x300 ≤ c.toNat ∧ c.toNat ≤ 0x36F then 0
  else if (0x1100 ≤ c.toNat ∧ c.toNat ≤ 0x115F) ∨
          (0x2E80 ≤ c.toNat ∧ c.toNat ≤ 0x303E) ∨
          (0x3041 ≤ c.toNat ∧ c.toNat ≤ 0x33FF) ∨
          (0x3400 ≤ c.toNat ∧ c.toNat ≤ 0x4DBF) ∨
          (0x4E00 ≤ c.toNat ∧ c.toNat ≤ 0x9FFF) ∨
          (0xAC00 ≤ c.toNat ∧ c.toNat ≤ 0xD7A3) ∨
          (0xF900 ≤ c.toNat ∧ c.toNat ≤ 0xFAFF) ∨
          (0xFF01 ≤ c.toNat ∧ c.toNat ≤ 0xFF60) ∨
          (0xFFE0 ≤ c.toNat ∧ c.toNat ≤ 0xFFE6) then 2
  else 1

/-- Model of `runewidth.StringWidth`: sum of the rune widths. -/
def stringWidth (s : List Char) : Nat :=
  (s.map runeWidth).sum

/-- The ellipsis marker used by `formatPR` (`"…"`, U+2026, display width 1). -/
def ellipsis : Char := '…'

/-- The rune-consuming loop of `runewidth.Truncate`: the longest prefix whose
total width fits in the (possibly negative) budget `w`; a rune is taken only
when its width does not overshoot the remaining budget. -/
def truncPrefix : List Char → Int → List Char
  | [], _ => []
  | c :: cs, w =>
      if (runeWidth c : Int) > w then []
      else c :: truncPrefix cs (w - runeWidth c)

/-- Model of `runewidth.Truncate s w tail`: if `s` already fits in `w` cells it
is returned unchanged, otherwise the longest prefix fitting `w - width tail`
cells is kept and `tail` is appended. -/
def truncate (s : List Char) (w : Int) (tail : List Char) : List Char :=
  if (stringWidth s : Int) ≤ w then s
  else truncPrefix s (w - stringWidth tail) ++ tail

/-- The truncation pattern of `formatPR` (applied to title and branch):
`if runewidth.StringWidth(x) > maxW { x = runewidth.Truncate(x, maxW-1, "…") }`,
with the subtraction taken in Go `int` arithmetic. -/
def truncPat (text : List Char) (maxW : Nat) : List Char :=
  if stringWidth text > maxW then truncate text ((maxW : Int) - 1) [ellipsis]
  else text

/-- Model of `runewidth.FillRight`: append single-width spaces until the
target width is reached; text already at or beyond the target is unchanged. -/
def fillRight (s : List Char) (w : Nat) : List Char :=
  s ++ List.replicate (w - stringWidth s) ' '

/-- Model of `strconv.Itoa` on the natural numbers (PR numbers are positive):
decimal digits, most significant first. -/
def digitChar (d : Nat) : Char := Char.ofNat (48 + d)

/-- Decimal rendering of a natural number, as in `strconv.Itoa`. -/
def itoa (n : Nat) : List Char :=
  if _h : n < 10 then [digitChar n]
  else itoa (n / 10) ++ [digitChar (n % 10)]
decreasing_by exact Nat.div_lt_self (by omega) (by omega)

/-- The PR record decoded from the listing collaborator's JSON
(`number,title,headRefName,isDraft,createdAt`).  The timestamp is kept
abstract (a tag passed to the relative-time formatter). -/
structure PullRequest where
  number : Nat
  title : List Char
  headRefName : List Char
  isDraft : Bool
  createdAt : Nat
deriving DecidableEq, Repr

/-- The four column widths computed by `selectPR`. -/
structure Widths where
  id : Nat
  title : Nat
  branch : Nat
  created : Nat
deriving DecidableEq, Repr

/-- The rendered id field `#<number>` whose width feeds the id column. -/
def idStr (pr : PullRequest) : List Char := '#' :: itoa pr.number

/-- The rendered created field `"about " + humanize.Time(createdAt)`;
`ht` models the external `humanize.Time`. -/
def createdStr (ht : Nat → List Char) (pr : PullRequest) : List Char :=
  ("about ").toList ++ ht pr.createdAt

/-- One iteration of `selectPR`'s width loop: each running maximum is bumped
when the record's rendered field is wider. -/
def widthStep (ht : Nat → List Char) (m : Widths) (pr : PullRequest) : Widths :=
  let idW := stringWidth (idStr pr)
  let titleW := stringWidth pr.title
  let branchW := stringWidth pr.headRefName
  let createdW := stringWidth (createdStr ht pr)
  { id := if idW > m.id then idW else m.id
    title := if titleW > m.title then titleW else m.title
    branch := if branchW > m.branch then branchW else m.branch
    created := if createdW > m.created then createdW else m.created }

/-- The column-width computation of `selectPR`: one pass over the records
starting from the literal floors (2, 5, 6, 10), then the title and branch
maxima are clamped to 100 and 30. -/
def computeWidths (ht : Nat → List Char) (prs : List PullRequest) : Widths :=
  let w := prs.foldl (widthStep ht) ⟨2, 5, 6, 10⟩
  { w with
    title := if w.title > 100 then 100 else w.title
    branch := if w.branch > 30 then 30 else w.branch }

/-- The id cell of a row: `runewidth.FillRight(fmt.Sprintf("#%d", n), idWidth)`
(the colour style around it does not change the visible text). -/
def idCell (pr : PullRequest) (idWidth : Nat) : List Char :=
  fillRight (idStr pr) idWidth

/-- Model of `formatPR`: id padded, title and branch truncated-then-padded,
created padded, joined by the two-space gutter (styles are identity on the
visible text). -/
def formatPR (ht : Nat → List Char) (pr : PullRequest)
    (idWidth titleWidth branchWidth createdWidth : Nat) : List Char :=
  let paddedID := idCell pr idWidth
  let paddedTitle := fillRight (truncPat pr.title titleWidth) titleWidth
  let paddedBranch := fillRight (truncPat pr.headRefName branchWidth) branchWidth
  let paddedCreated := fillRight (createdStr ht pr) createdWidth
  paddedID ++ ("  ").toList ++ paddedTitle ++ ("  ").toList ++
    paddedBranch ++ ("  ").toList ++ paddedCreated

/-- The option list built by `selectPR`: one `(label, record)` pair per record,
in the order of the input list, labels rendered with the computed widths. -/
def buildOptions (ht : Nat → List Char) (prs : List PullRequest) :
    List (List Char × PullRequest) :=
  let w := computeWidths ht prs
  prs.map (fun pr => (formatPR ht pr w.id w.title w.branch w.created, pr))

/-- Maximum of a list of naturals (0 for the empty list). -/
def listMax (l : List Nat) : Nat := l.foldr max 0

/-- A sample record used to instantiate the theorems on concrete input. -/
def samplePR : PullRequest := ⟨42, ("Fix bug").toList, ("fix/bug").toList, false, 0⟩

/-- A sample relative-time formatter used to instantiate the theorems. -/
def sampleHT : Nat → List Char := fun _ => ("2 hours ago").toList

/-! ### The dispatcher (`main`) and its collaborators

The external `gh` CLI is modelled by an environment recording the outcome of
each possible subprocess call; `runMain` replays `main`'s control flow over
that environment and records the collaborator calls it issues, the process
exit code, and the chunks printed to stdout and stderr. -/

/-- Outcome of `gh pr list` as seen by `listPRs`: the subprocess failed
(carrying its stderr text and error), or it succeeded but its stdout was not
valid JSON (carrying the JSON decoder's message), or it yielded a list. -/
inductive ListOutcome where
  | execFail (stderrText errMsg : List Char)
  | parseFail (jsonErrMsg : List Char)
  | ok (prs : List PullRequest)
deriving DecidableEq, Repr

/-- Outcomes of the collaborator calls `main` may issue, plus the user's
selection: `selection = none` means the menu was cancelled (with the
widget's own error text `cancelMsg`), `some i` means row `i` was accepted.
`checkoutErr` / `browseErr` are `some msg` when the subprocess fails. -/
structure Env where
  listOutcome : ListOutcome
  repoView : Option (List Char)
  selection : Option Nat
  cancelMsg : List Char
  checkoutStdout : List Char
  checkoutStderr : List Char
  checkoutErr : Option (List Char)
  browseErr : Option (List Char)
deriving DecidableEq, Repr

/-- The two run flags, `--web` and `--view`. -/
structure Flags where
  web : Bool
  view : Bool
deriving DecidableEq, Repr

/-- A collaborator call issued by the dispatcher. -/
inductive Call where
  | list
  | repoView
  | select
  | checkout (number : Nat)
  | browse (number : Nat)
deriving DecidableEq, Repr

/-- The observable result of one run: calls issued in order, exit code, and
the chunks printed to stdout and stderr. -/
structure RunResult where
  calls : List Call
  exitCode : Nat
  stdoutChunks : List (List Char)
  stderrChunks : List (List Char)
deriving DecidableEq, Repr

/-- Model of `listPRs`: returns `(prs, stderr, err)` exactly as the Go
function does — on subprocess failure the collaborator's stderr and error, on
a JSON decoding failure an empty stderr and the wrapped error
`"failed to parse PR list: ..."`. -/
def listPRs (o : ListOutcome) :
    Option (List PullRequest) × List Char × Option (List Char) :=
  match o with
  | .execFail st e => (none, st, some e)
  | .parseFail je => (none, [], some (("failed to parse PR list: ").toList ++ je))
  | .ok prs => (some prs, [], none)

/-- Whitespace trimming on both ends, as `strings.TrimSpace`. -/
def trimSpace (s : List Char) : List Char :=
  ((s.dropWhile Char.isWhitespace).reverse.dropWhile Char.isWhitespace).reverse

/-- Model of `getRepoName`: empty string when `gh repo view` fails, otherwise
its stdout trimmed. -/
def getRepoName (repoView : Option (List Char)) : List Char :=
  match repoView with
  | none => []
  | some s => trimSpace s

/-- The zero value `PullRequest{}` returned by `selectPR` on error. -/
def zeroPR : PullRequest := ⟨0, [], [], false, 0⟩

/-- The selection step of `selectPR`: on cancellation the error
`"selection cancelled: "` wrapping the widget's message, otherwise the chosen
record (the widget only ever yields one of the presented records, in the
order of `buildOptions`). -/
def selectPRResult (prs : List PullRequest) (sel : Option Nat)
    (cancelMsg : List Char) : Except (List Char) PullRequest :=
  match sel with
  | none => .error (("selection cancelled: ").toList ++ cancelMsg)
  | some i => .ok (prs.getD i zeroPR)

/-- `main`'s error reporting: `fmt.Fprintf(os.Stderr, "Error: %v\n", err)`. -/
def errLine (e : List Char) : List Char :=
  ("Error: ").toList ++ e ++ ['\n']

/-- The one-line summary printed by `checkoutPR` before checking out
(styles are identity on visible text; `Printf` ends with a blank line). -/
def summaryLine (pr : PullRequest) : List Char :=
  idStr pr ++ ("  ").toList ++ pr.title ++ ("  ").toList ++
    pr.headRefName ++ ("\n\n").toList

/-- The wrapped checkout error `"failed to checkout PR #%d: %w"`. -/
def checkoutErrMsg (n : Nat) (e : List Char) : List Char :=
  ("failed to checkout PR #").toList ++ itoa n ++ (": ").toList ++ e

/-- The wrapped browse error `"failed to open PR #%d in browser: %w"`. -/
def browseErrMsg (n : Nat) (e : List Char) : List Char :=
  ("failed to open PR #").toList ++ itoa n ++ (" in browser: ").toList ++ e

/-- The chunks `checkoutPR` relays to stdout: the subprocess's stdout and
stderr, each only when non-empty. -/
def checkoutRelay (env : Env) : List (List Char) :=
  (if env.checkoutStdout ≠ [] then [env.checkoutStdout] else []) ++
    (if env.checkoutStderr ≠ [] then [env.checkoutStderr] else [])

/-- Model of `main`: list the PRs (spinner is cosmetic and omitted); on a
listing error print the captured stderr and exit 1; on an empty list print
the no-PRs message (naming the repo when `getRepoName` yields one) and exit
0; otherwise run the selection; on cancellation print the wrapped error and
exit 1; then dispatch on the flags: `view` browses only, otherwise checkout
(printing the summary and relaying its output), and on success `web` browses
with a leading blank line. -/
def runMain (ht : Nat → List Char) (f : Flags) (env : Env) : RunResult :=
  let r := listPRs env.listOutcome
  match r.2.2 with
  | some _ => ⟨[.list], 1, [], [r.2.1]⟩
  | none =>
    let prs := r.1.getD []
    if prs.isEmpty then
      let repo := getRepoName env.repoView
      let msg :=
        if repo = [] then ("no open pull requests\n").toList
        else ("no open pull requests in ").toList ++ repo ++ ['\n']
      ⟨[.list, .repoView], 0, [msg], []⟩
    else
      match selectPRResult prs env.selection env.cancelMsg with
      | .error e => ⟨[.list, .select], 1, [], [errLine e]⟩
      | .ok pr =>
        if f.view then
          match env.browseErr with
          | none => ⟨[.list, .select, .browse pr.number], 0, [], []⟩
          | some be =>
              ⟨[.list, .select, .browse pr.number], 1, [],
                [errLine (browseErrMsg pr.number be)]⟩
        else
          match env.checkoutErr with
          | some ce =>
              ⟨[.list, .select, .checkout pr.number], 1,
                summaryLine pr :: checkoutRelay env,
                [errLine (checkoutErrMsg pr.number ce)]⟩
          | none =>
            if f.web then
              match env.browseErr with
              | none =>
                  ⟨[.list, .select, .checkout pr.number, .browse pr.number], 0,
                    summaryLine pr :: checkoutRelay env ++ [['\n']], []⟩
              | some be =>
                  ⟨[.list, .select, .checkout pr.number, .browse pr.number], 1,
                    summaryLine pr :: checkoutRelay env ++ [['\n']],
                    [errLine (browseErrMsg pr.number be)]⟩
            else
              ⟨[.list, .select, .checkout pr.number], 0,
                summaryLine pr :: checkoutRelay env, []⟩

/-! ### Helper lemmas -/

theorem if_gt_eq_max (a x : Nat) : (if x > a then x else a) = max a x := by
  split <;> omega

theorem foldl_field_max {α : Type} (g : α → Nat) (l : List α) (a : Nat) :
    l.foldl (fun m x => if g x > m then g x else m) a = max a (listMax (l.map g)) := by
  induction l generalizing a with
  | nil => simp [listMax]
  | cons x xs ih =>
      rw [List.foldl_cons, ih, if_gt_eq_max]
      simp [listMax, Nat.max_assoc]

theorem le_listMax (l : List Nat) (x : Nat) (hx : x ∈ l) : x ≤ listMax l := by
  induction l with
  | nil => cases hx
  | cons y ys ih =>
      rcases List.mem_cons.mp hx with h | h
      · subst h; simp [listMax]
      · have := ih h
        simp only [listMax, List.foldr_cons] at *
        omega

theorem foldl_widthStep_id (ht : Nat → List Char) (prs : List PullRequest)
    (w : Widths) :
    (prs.foldl (widthStep ht) w).id =
      prs.foldl (fun m pr => if stringWidth (idStr pr) > m then stringWidth (idStr pr) else m) w.id := by
  induction prs generalizing w with
  | nil => rfl
  | cons pr prs ih => simp only [List.foldl_cons, ih, widthStep]

theorem foldl_widthStep_title (ht : Nat → List Char) (prs : List PullRequest)
    (w : Widths) :
    (prs.foldl (widthStep ht) w).title =
      prs.foldl (fun m pr => if stringWidth pr.title > m then stringWidth pr.title else m) w.title := by
  induction prs generalizing w with
  | nil => rfl
  | cons pr prs ih => simp only [List.foldl_cons, ih, widthStep]

theorem foldl_widthStep_branch (ht : Nat → List Char) (prs : List PullRequest)
    (w : Widths) :
    (prs.foldl (widthStep ht) w).branch =
      prs.foldl (fun m pr => if stringWidth pr.headRefName > m then stringWidth pr.headRefName else m) w.branch := by
  induction prs generalizing w with
  | nil => rfl
  | cons pr prs ih => simp only [List.foldl_cons, ih, widthStep]

theorem foldl_widthStep_created (ht : Nat → List Char) (prs : List PullRequest)
    (w : Widths) :
    (prs.foldl (widthStep ht) w).created =
      prs.foldl (fun m pr => if stringWidth (createdStr ht pr) > m then stringWidth (createdStr ht pr) else m) w.created := by
  induction prs generalizing w with
  | nil => rfl
  | cons pr prs ih => simp only [List.foldl_cons, ih, widthStep]

theorem computeWidths_id (ht : Nat → List Char) (prs : List PullRequest) :
    (computeWidths ht prs).id =
      max 2 (listMax (prs.map fun pr => stringWidth (idStr pr))) := by
  simp only [computeWidths]
  rw [foldl_widthStep_id, foldl_field_max]

theorem computeWidths_title (ht : Nat → List Char) (prs : List PullRequest) :
    (computeWidths ht prs).title =
      min 100 (max 5 (listMax (prs.map fun pr => stringWidth pr.title))) := by
  simp only [computeWidths]
  rw [foldl_widthStep_title, foldl_field_max]
  dsimp only
  split <;> omega

theorem computeWidths_branch (ht : Nat → List Char) (prs : List PullRequest) :
    (computeWidths ht prs).branch =
      min 30 (max 6 (listMax (prs.map fun pr => stringWidth pr.headRefName))) := by
  simp only [computeWidths]
  rw [foldl_widthStep_branch, foldl_field_max]
  dsimp only
  split <;> omega

theorem computeWidths_created (ht : Nat → List Char) (prs : List PullRequest) :
    (computeWidths ht prs).created =
      max 10 (listMax (prs.map fun pr => stringWidth (createdStr ht pr))) := by
  simp only [computeWidths]
  rw [foldl_widthStep_created, foldl_field_max]

theorem truncPrefix_prefix (s : List Char) (w : Int) :
    truncPrefix s w <+: s := by
  induction s generalizing w with
  | nil => simp [truncPrefix]
  | cons c cs ih =>
      simp only [truncPrefix]
      split
      · exact List.nil_prefix
      · exact List.cons_prefix_cons.mpr ⟨rfl, ih _⟩

theorem truncPrefix_neg (s : List Char) (w : Int) (hw : w < 0) :
    truncPrefix s w = [] := by
  cases s with
  | nil => rfl
  | cons c cs =>
      have h : ((runeWidth c : Int) > w) := by
        have : (0 : Int) ≤ runeWidth c := Int.natCast_nonneg _
        omega
      simp [truncPrefix, h]

theorem stringWidth_cons (c : Char) (s : List Char) :
    stringWidth (c :: s) = runeWidth c + stringWidth s := by
  simp [stringWidth]

theorem stringWidth_append (s t : List Char) :
    stringWidth (s ++ t) = stringWidth s + stringWidth t := by
  simp [stringWidth]

theorem truncPrefix_width_le (s : List Char) (w : Int) (hw : 0 ≤ w) :
    (stringWidth (truncPrefix s w) : Int) ≤ w := by
  induction s generalizing w with
  | nil => simpa [truncPrefix, stringWidth] using hw
  | cons c cs ih =>
      simp only [truncPrefix]
      split
      · simpa [stringWidth] using hw
      · rename_i h
        rw [stringWidth_cons]
        have h' : (runeWidth c : Int) ≤ w := by omega
        have := ih (w - runeWidth c) (by omega)
        push_cast
        omega

theorem truncPrefix_width_le' (s : List Char) (w : Int) :
    (stringWidth (truncPrefix s w) : Int) ≤ max w 0 := by
  rcases le_or_lt 0 w with hw | hw
  · have := truncPrefix_width_le s w hw
    omega
  · rw [truncPrefix_neg s w hw]
    simp [stringWidth]

/-- On text whose runes are all width 1 the truncation prefix is a plain
`take` of the budget. -/
theorem truncPrefix_narrow (s : List Char) (w : Int)
    (hn : ∀ c ∈ s, runeWidth c = 1) :
    truncPrefix s w = s.take w.toNat := by
  induction s generalizing w with
  | nil => simp [truncPrefix]
  | cons c cs ih =>
      have hc : runeWidth c = 1 := hn c (List.mem_cons_self _ _)
      simp only [truncPrefix, hc]
      split
      · rename_i h
        have : w.toNat = 0 := by omega
        simp [this]
      · rename_i h
        have h1 : (1 : Int) ≤ w := by omega
        push_cast
        rw [ih (w - 1) (fun c hc => hn c (List.mem_cons_of_mem _ hc))]
        have h2 : w.toNat = (w - 1).toNat + 1 := by omega
        rw [h2, List.take_succ_cons]

theorem stringWidth_narrow (s : List Char) (hn : ∀ c ∈ s, runeWidth c = 1) :
    stringWidth s = s.length := by
  induction s with
  | nil => rfl
  | cons c cs ih =>
      rw [stringWidth_cons, hn c (List.mem_cons_self _ _),
        ih (fun c hc => hn c (List.mem_cons_of_mem _ hc))]
      simp [Nat.add_comm]

theorem runeWidth_ellipsis : runeWidth ellipsis = 1 := by decide

/-! ### Decimal rendering: every digit is one cell wide -/

theorem runeWidth_digitChar (d : Nat) (hd : d < 10) :
    runeWidth (digitChar d) = 1 := by
  interval_cases d <;> decide

theorem itoa_chars (n : Nat) : ∀ c ∈ itoa n, ∃ d, d < 10 ∧ c = digitChar d := by
  induction n using Nat.strong_induction_on with
  | _ n ih =>
      intro c hc
      rw [itoa] at hc
      split at hc
      · rename_i h
        rcases List.mem_singleton.mp hc with rfl
        exact ⟨n, h, rfl⟩
      · rename_i h
        rcases List.mem_append.mp hc with h' | h'
        · exact ih (n / 10) (Nat.div_lt_self (by omega) (by omega)) c h'
        · rcases List.mem_singleton.mp h' with rfl
          exact ⟨n % 10, Nat.mod_lt _ (by omega), rfl⟩

theorem stringWidth_itoa (n : Nat) : stringWidth (itoa n) = (itoa n).length := by
  apply stringWidth_narrow
  intro c hc
  rcases itoa_chars n c hc with ⟨d, hd, rfl⟩
  exact runeWidth_digitChar d hd

theorem stringWidth_idStr (pr : PullRequest) :
    stringWidth (idStr pr) = (itoa pr.number).length + 1 := by
  rw [idStr, stringWidth_cons, stringWidth_itoa]
  have : runeWidth '#' = 1 := by decide
  omega

theorem stringWidth_fillRight (s : List Char) (w : Nat) :
    stringWidth (fillRight s w) = max w (stringWidth s) := by
  rw [fillRight, stringWidth_append]
  have : stringWidth (List.replicate (w - stringWidth s) ' ') =
      w - stringWidth s := by
    rw [stringWidth_narrow]
    · simp
    · intro c hc
      rw [List.eq_of_mem_replicate hc]
      decide
  omega

/-- On all-narrow text wider than a ceiling `maxW ≥ 2`, the `formatPR`
truncation pattern keeps exactly `maxW - 2` characters and appends the
ellipsis (the budget `maxW - 1` handed to `Truncate` is reduced again by the
tail's width inside `Truncate`). -/
theorem truncPat_narrow (text : List Char) (maxW : Nat)
    (hn : ∀ c ∈ text, runeWidth c = 1) (h2 : 2 ≤ maxW)
    (hover : stringWidth text > maxW) :
    truncPat text maxW = text.take (maxW - 2) ++ [ellipsis] := by
  rw [truncPat, if_pos hover, truncate]
  rw [if_neg (by omega)]
  have he : stringWidth [ellipsis] = 1 := by decide
  rw [he, truncPrefix_narrow text _ hn]
  congr 1
  congr 1
  omega

/-! ### Claim theorems -/

/-- C3: for every non-empty PR list the four column widths are
`max(floor, max over records of rendered field width)` with floors
id=2, title=5, branch=6, created=10, the title then clamped to 100 and the
branch to 30 (id and created unclamped), the created field being measured on
`"about " ++ humanize(createdAt)`, not on the raw timestamp. -/
theorem computeWidths_clamped_maxima (ht : Nat → List Char)
    (prs : List PullRequest) (hne : prs ≠ []) :
    (computeWidths ht prs).id =
      max 2 (listMax (prs.map fun pr => stringWidth (idStr pr))) ∧
    (computeWidths ht prs).title =
      min 100 (max 5 (listMax (prs.map fun pr => stringWidth pr.title))) ∧
    (computeWidths ht prs).branch =
      min 30 (max 6 (listMax (prs.map fun pr => stringWidth pr.headRefName))) ∧
    (computeWidths ht prs).created =
      max 10 (listMax (prs.map fun pr =>
        stringWidth (("about ").toList ++ ht pr.createdAt))) :=
  ⟨computeWidths_id ht prs, computeWidths_title ht prs,
    computeWidths_branch ht prs, computeWidths_created ht prs⟩

/-- Witness for C3 at a concrete record. -/
theorem computeWidths_clamped_maxima_witness :
    ([samplePR] ≠ ([] : List PullRequest)) ∧
    ((computeWidths sampleHT [samplePR]).id =
      max 2 (listMax ([samplePR].map fun pr => stringWidth (idStr pr))) ∧
    (computeWidths sampleHT [samplePR]).title =
      min 100 (max 5 (listMax ([samplePR].map fun pr => stringWidth pr.title))) ∧
    (computeWidths sampleHT [samplePR]).branch =
      min 30 (max 6 (listMax ([samplePR].map fun pr => stringWidth pr.headRefName))) ∧
    (computeWidths sampleHT [samplePR]).created =
      max 10 (listMax ([samplePR].map fun pr =>
        stringWidth (("about ").toList ++ sampleHT pr.createdAt)))) :=
  ⟨by decide, computeWidths_clamped_maxima sampleHT [samplePR] (by decide)⟩

/-- C4 (counterexample): at `maxWidth = 0` and text `"ab"` the truncation
pattern yields the bare ellipsis, whose rendered width 1 exceeds `maxWidth`,
so the guarantee "the result's rendered width never exceeds maxWidth" fails
for `maxWidth = 0`. -/
theorem truncPat_zero_budget_counterexample :
    truncPat ['a', 'b'] 0 = [ellipsis] ∧
    ¬ stringWidth (truncPat ['a', 'b'] 0) ≤ 0 := by
  constructor
  · decide
  · decide

/-- C4 (amended: `maxWidth ≥ 1`): the truncation pattern returns the text
unchanged when its rendered width is at most `maxWidth`; otherwise it
returns a prefix of the text of rendered width at most `maxWidth - 1`
followed by the single-width ellipsis, and the result's rendered width never
exceeds `maxWidth`. -/
theorem truncPat_spec (text : List Char) (maxW : Nat) (hW : 1 ≤ maxW) :
    (stringWidth text ≤ maxW → truncPat text maxW = text) ∧
    (stringWidth text > maxW →
      ∃ p, p <+: text ∧ truncPat text maxW = p ++ [ellipsis] ∧
        stringWidth p ≤ maxW - 1 ∧
        stringWidth (truncPat text maxW) ≤ maxW) := by
  constructor
  · intro hle
    rw [truncPat, if_neg (by omega)]
  · intro hover
    have hpat : truncPat text maxW =
        truncPrefix text ((maxW : Int) - 1 - 1) ++ [ellipsis] := by
      rw [truncPat, if_pos hover, truncate, if_neg (by omega)]
      have he : stringWidth [ellipsis] = 1 := by decide
      rw [he]
      norm_num
    refine ⟨truncPrefix text ((maxW : Int) - 1 - 1), truncPrefix_prefix _ _, hpat, ?_, ?_⟩
    · have := truncPrefix_width_le' text ((maxW : Int) - 1 - 1)
      omega
    · rw [hpat, stringWidth_append]
      have he : stringWidth [ellipsis] = 1 := by decide
      have := truncPrefix_width_le' text ((maxW : Int) - 1 - 1)
      omega

/-- Witness for C4's amended theorem at `"hello"`, `maxWidth = 3`. -/
theorem truncPat_spec_witness :
    (1 ≤ 3) ∧
    ((stringWidth (("hello").toList) ≤ 3 → truncPat (("hello").toList) 3 = ("hello").toList) ∧
    (stringWidth (("hello").toList) > 3 →
      ∃ p, p <+: ("hello").toList ∧ truncPat (("hello").toList) 3 = p ++ [ellipsis] ∧
        stringWidth p ≤ 3 - 1 ∧
        stringWidth (truncPat (("hello").toList) 3) ≤ 3)) :=
  ⟨by decide, truncPat_spec (("hello").toList) 3 (by decide)⟩

/-- C5 (counterexample): for the 150-character (width-150) title
`replicate 150 'a'` under the ceiling 100, the truncated content is not
"99 visible characters plus the ellipsis": the code keeps only 98. -/
theorem title_truncation_counterexample :
    truncPat (List.replicate 150 'a') 100 ≠
      List.replicate 99 'a' ++ [ellipsis] := by
  have hn : ∀ c ∈ List.replicate 150 'a', runeWidth c = 1 := by
    intro c hc
    rw [List.eq_of_mem_replicate hc]
    decide
  have hw : stringWidth (List.replicate 150 'a') = 150 := by
    rw [stringWidth_narrow _ hn, List.length_replicate]
  have h := truncPat_narrow (List.replicate 150 'a') 100 hn (by omega) (by omega)
  rw [h, List.take_replicate]
  intro hEq
  have := congrArg List.length hEq
  simp at this

/-- C5 (amended): a title of rendered width 150 consisting of narrow
characters, under the title ceiling 100, is truncated to 98 visible
characters followed by the ellipsis — truncated content of rendered width
exactly 99, not 100. -/
theorem title_truncation_at_150 (title : List Char)
    (hn : ∀ c ∈ title, runeWidth c = 1) (hl : title.length = 150) :
    truncPat title 100 = title.take 98 ++ [ellipsis] ∧
    stringWidth (truncPat title 100) = 99 := by
  have hw : stringWidth title = 150 := by rw [stringWidth_narrow _ hn, hl]
  have h := truncPat_narrow title 100 hn (by omega) (by omega)
  norm_num at h
  refine ⟨h, ?_⟩
  rw [h, stringWidth_append]
  have htake : stringWidth (title.take 98) = 98 := by
    rw [stringWidth_narrow _ (fun c hc => hn c (List.mem_of_mem_take hc))]
    rw [List.length_take, hl]
    omega
  have he : stringWidth [ellipsis] = 1 := by decide
  omega

/-- Witness for C5's amended theorem at `replicate 150 'a'`. -/
theorem title_truncation_at_150_witness :
    ((∀ c ∈ List.replicate 150 'a', runeWidth c = 1) ∧
      (List.replicate 150 'a').length = 150) ∧
    (truncPat (List.replicate 150 'a') 100 =
        (List.replicate 150 'a').take 98 ++ [ellipsis] ∧
      stringWidth (truncPat (List.replicate 150 'a') 100) = 99) :=
  ⟨⟨fun c hc => by rw [List.eq_of_mem_replicate hc]; decide, by simp⟩,
    title_truncation_at_150 (List.replicate 150 'a')
      (fun c hc => by rw [List.eq_of_mem_replicate hc]; decide) (by simp)⟩

/-- C8: the selectable options are exactly the listed records in the
collaborator's order — mapping each option to its record recovers the input
list itself, so nothing is sorted, filtered, or re-derived (and `isDraft`,
which only touches the label's colour, affects neither ordering nor
inclusion). -/
theorem options_preserve_order (ht : Nat → List Char)
    (prs : List PullRequest) :
    (buildOptions ht prs).map Prod.snd = prs := by
  simp [buildOptions, Function.comp_def]

/-- C10: each record's contribution to the id column is the rendered width
of `"#" ++ decimal(number)` — one more than the bare number's width, i.e.
digit count plus one — and the id cell rendered with the computed column
width has exactly that width, with the full `#<number>` kept untruncated as
a prefix of the cell. -/
theorem id_column_exact_fit (ht : Nat → List Char)
    (prs : List PullRequest) (pr : PullRequest) (hpr : pr ∈ prs) :
    stringWidth (idStr pr) = (itoa pr.number).length + 1 ∧
    stringWidth (idStr pr) = stringWidth (itoa pr.number) + 1 ∧
    stringWidth (idCell pr (computeWidths ht prs).id) =
      (computeWidths ht prs).id ∧
    idStr pr <+: idCell pr (computeWidths ht prs).id := by
  refine ⟨stringWidth_idStr pr, ?_, ?_, ?_⟩
  · rw [stringWidth_idStr, stringWidth_itoa]
  · rw [idCell, stringWidth_fillRight]
    have hmem : stringWidth (idStr pr) ∈
        prs.map fun pr => stringWidth (idStr pr) :=
      List.mem_map_of_mem _ hpr
    have hle := le_listMax _ _ hmem
    rw [computeWidths_id]
    omega
  · exact ⟨_, rfl⟩

/-- Witness for C10 at a concrete record and singleton list. -/
theorem id_column_exact_fit_witness :
    (samplePR ∈ [samplePR]) ∧
    (stringWidth (idStr samplePR) = (itoa samplePR.number).length + 1 ∧
      stringWidth (idStr samplePR) = stringWidth (itoa samplePR.number) + 1 ∧
      stringWidth (idCell samplePR (computeWidths sampleHT [samplePR]).id) =
        (computeWidths sampleHT [samplePR]).id ∧
      idStr samplePR <+: idCell samplePR (computeWidths sampleHT [samplePR]).id) :=
  ⟨by decide, id_column_exact_fit sampleHT [samplePR] samplePR (by decide)⟩

/-- C1: with `view=true` (whatever `web` is) the dispatcher never issues a
checkout in any run, and after a confirmed selection it goes directly to
browser-open and terminates on that call's success or failure. -/
theorem view_skips_checkout (ht : Nat → List Char) (f : Flags) (env : Env)
    (hv : f.view = true) :
    (∀ n, Call.checkout n ∉ (runMain ht f env).calls) ∧
    (∀ prs i, env.listOutcome = .ok prs → prs ≠ [] → env.selection = some i →
      (runMain ht f env).calls =
        [.list, .select, .browse (prs.getD i zeroPR).number] ∧
      (runMain ht f env).exitCode = (if env.browseErr = none then 0 else 1)) := by
  constructor
  · intro n
    cases h : env.listOutcome with
    | execFail st e => simp [runMain, listPRs, h]
    | parseFail je => simp [runMain, listPRs, h]
    | ok prs =>
        cases hE : prs.isEmpty with
        | true => simp [runMain, listPRs, h, hE]
        | false =>
            cases hs : env.selection with
            | none => simp [runMain, listPRs, h, hE, hs, selectPRResult]
            | some i =>
                cases hb : env.browseErr with
                | none => simp [runMain, listPRs, h, hE, hs, selectPRResult, hv, hb]
                | some be => simp [runMain, listPRs, h, hE, hs, selectPRResult, hv, hb]
  · intro prs i hok hne hsel
    have hE : prs.isEmpty = false := by
      cases prs
      · exact absurd rfl hne
      · rfl
    cases hb : env.browseErr with
    | none => simp [runMain, listPRs, hok, hE, hsel, selectPRResult, hv, hb]
    | some be => simp [runMain, listPRs, hok, hE, hsel, selectPRResult, hv, hb]

/-- Witness for C1: both flags set, browse succeeding. -/
theorem view_skips_checkout_witness :
    ((⟨true, true⟩ : Flags).view = true) ∧
    ((∀ n, Call.checkout n ∉
        (runMain sampleHT ⟨true, true⟩
          ⟨.ok [samplePR], none, some 0, [], [], [], none, none⟩).calls) ∧
    (∀ prs i,
        (⟨.ok [samplePR], none, some 0, [], [], [], none, none⟩ : Env).listOutcome = .ok prs →
        prs ≠ [] →
        (⟨.ok [samplePR], none, some 0, [], [], [], none, none⟩ : Env).selection = some i →
      (runMain sampleHT ⟨true, true⟩
          ⟨.ok [samplePR], none, some 0, [], [], [], none, none⟩).calls =
        [.list, .select, .browse (prs.getD i zeroPR).number] ∧
      (runMain sampleHT ⟨true, true⟩
          ⟨.ok [samplePR], none, some 0, [], [], [], none, none⟩).exitCode =
        (if (⟨.ok [samplePR], none, some 0, [], [], [], none, none⟩ : Env).browseErr = none
          then 0 else 1))) :=
  ⟨rfl, view_skips_checkout sampleHT ⟨true, true⟩
    ⟨.ok [samplePR], none, some 0, [], [], [], none, none⟩ rfl⟩

/-- C2: with `view=false, web=true` after a confirmed selection, checkout is
issued first; browser-open is issued only when checkout succeeds, and a
checkout failure terminates with exit code 1 without any browse call. -/
theorem web_browses_only_after_checkout (ht : Nat → List Char) (f : Flags)
    (env : Env) (prs : List PullRequest) (i : Nat)
    (hv : f.view = false) (hw : f.web = true)
    (hok : env.listOutcome = .ok prs) (hne : prs ≠ [])
    (hsel : env.selection = some i) :
    (env.checkoutErr = none →
      (runMain ht f env).calls =
        [.list, .select, .checkout (prs.getD i zeroPR).number,
          .browse (prs.getD i zeroPR).number] ∧
      (runMain ht f env).exitCode = (if env.browseErr = none then 0 else 1)) ∧
    (env.checkoutErr ≠ none →
      (runMain ht f env).calls =
        [.list, .select, .checkout (prs.getD i zeroPR).number] ∧
      (runMain ht f env).exitCode = 1 ∧
      ∀ m, Call.browse m ∉ (runMain ht f env).calls) := by
  have hE : prs.isEmpty = false := by
    cases prs
    · exact absurd rfl hne
    · rfl
  constructor
  · intro hco
    cases hb : env.browseErr with
    | none => simp [runMain, listPRs, hok, hE, hsel, selectPRResult, hv, hw, hco, hb]
    | some be => simp [runMain, listPRs, hok, hE, hsel, selectPRResult, hv, hw, hco, hb]
  · intro hco
    cases hc : env.checkoutErr with
    | none => exact absurd hc hco
    | some ce => simp [runMain, listPRs, hok, hE, hsel, selectPRResult, hv, hc]

/-- Witness for C2: checkout failing, browse never issued, exit 1. -/
theorem web_browses_only_after_checkout_witness :
    ((⟨true, false⟩ : Flags).view = false ∧ (⟨true, false⟩ : Flags).web = true ∧
      (⟨.ok [samplePR], none, some 0, [], [], [], some (("boom").toList), none⟩ : Env).listOutcome =
        .ok [samplePR] ∧
      ([samplePR] : List PullRequest) ≠ [] ∧
      (⟨.ok [samplePR], none, some 0, [], [], [], some (("boom").toList), none⟩ : Env).selection =
        some 0) ∧
    (((⟨.ok [samplePR], none, some 0, [], [], [], some (("boom").toList), none⟩ : Env).checkoutErr = none →
      (runMain sampleHT ⟨true, false⟩
          ⟨.ok [samplePR], none, some 0, [], [], [], some (("boom").toList), none⟩).calls =
        [.list, .select, .checkout (([samplePR] : List PullRequest).getD 0 zeroPR).number,
          .browse (([samplePR] : List PullRequest).getD 0 zeroPR).number] ∧
      (runMain sampleHT ⟨true, false⟩
          ⟨.ok [samplePR], none, some 0, [], [], [], some (("boom").toList), none⟩).exitCode =
        (if (⟨.ok [samplePR], none, some 0, [], [], [], some (("boom").toList), none⟩ : Env).browseErr = none
          then 0 else 1)) ∧
    ((⟨.ok [samplePR], none, some 0, [], [], [], some (("boom").toList), none⟩ : Env).checkoutErr ≠ none →
      (runMain sampleHT ⟨true, false⟩
          ⟨.ok [samplePR], none, some 0, [], [], [], some (("boom").toList), none⟩).calls =
        [.list, .select, .checkout (([samplePR] : List PullRequest).getD 0 zeroPR).number] ∧
      (runMain sampleHT ⟨true, false⟩
          ⟨.ok [samplePR], none, some 0, [], [], [], some (("boom").toList), none⟩).exitCode = 1 ∧
      ∀ m, Call.browse m ∉
        (runMain sampleHT ⟨true, false⟩
          ⟨.ok [samplePR], none, some 0, [], [], [], some (("boom").toList), none⟩).calls)) :=
  ⟨⟨rfl, rfl, rfl, by decide, rfl⟩,
    web_browses_only_after_checkout sampleHT ⟨true, false⟩
      ⟨.ok [samplePR], none, some 0, [], [], [], some (("boom").toList), none⟩
      [samplePR] 0 rfl rfl rfl (by decide) rfl⟩

/-- C6: on an empty listing the run exits 0 after printing the no-PRs
message — naming the repository when the best-effort resolution yields a
(non-blank) name, omitting it when the resolution fails — and no selection,
checkout or browse is performed. -/
theorem empty_list_exits_zero (ht : Nat → List Char) (f : Flags) (env : Env)
    (hok : env.listOutcome = .ok []) :
    (runMain ht f env).exitCode = 0 ∧
    (runMain ht f env).calls = [.list, .repoView] ∧
    Call.select ∉ (runMain ht f env).calls ∧
    (env.repoView = none →
      (runMain ht f env).stdoutChunks = [("no open pull requests\n").toList]) ∧
    (∀ s, env.repoView = some s → trimSpace s ≠ [] →
      (runMain ht f env).stdoutChunks =
        [("no open pull requests in ").toList ++ trimSpace s ++ ['\n']]) := by
  refine ⟨?_, ?_, ?_, ?_, ?_⟩
  · simp [runMain, listPRs, hok]
  · simp [runMain, listPRs, hok]
  · simp [runMain, listPRs, hok]
  · intro hrv
    simp [runMain, listPRs, hok, getRepoName, hrv]
  · intro s hrv hne
    simp [runMain, listPRs, hok, getRepoName, hrv, hne]

/-- Witness for C6 with a successful repository resolution. -/
theorem empty_list_exits_zero_witness :
    ((⟨.ok [], some (("owner/repo\n").toList), none, [], [], [], none, none⟩ : Env).listOutcome =
      .ok []) ∧
    ((runMain sampleHT ⟨false, false⟩
        ⟨.ok [], some (("owner/repo\n").toList), none, [], [], [], none, none⟩).exitCode = 0 ∧
    (runMain sampleHT ⟨false, false⟩
        ⟨.ok [], some (("owner/repo\n").toList), none, [], [], [], none, none⟩).calls =
      [.list, .repoView] ∧
    Call.select ∉ (runMain sampleHT ⟨false, false⟩
        ⟨.ok [], some (("owner/repo\n").toList), none, [], [], [], none, none⟩).calls ∧
    ((⟨.ok [], some (("owner/repo\n").toList), none, [], [], [], none, none⟩ : Env).repoView = none →
      (runMain sampleHT ⟨false, false⟩
          ⟨.ok [], some (("owner/repo\n").toList), none, [], [], [], none, none⟩).stdoutChunks =
        [("no open pull requests\n").toList]) ∧
    (∀ s, (⟨.ok [], some (("owner/repo\n").toList), none, [], [], [], none, none⟩ : Env).repoView = some s →
        trimSpace s ≠ [] →
      (runMain sampleHT ⟨false, false⟩
          ⟨.ok [], some (("owner/repo\n").toList), none, [], [], [], none, none⟩).stdoutChunks =
        [("no open pull requests in ").toList ++ trimSpace s ++ ['\n']])) :=
  ⟨rfl, empty_list_exits_zero sampleHT ⟨false, false⟩
    ⟨.ok [], some (("owner/repo\n").toList), none, [], [], [], none, none⟩ rfl⟩

/-- C7: on malformed listing JSON the run is fatal (exit 1) — but the
descriptive wrapped message `"failed to parse PR list: ..."` built by
`listPRs` is discarded by `main`, which prints the (empty) captured stderr
string instead, so the failure is not reported to the user at all. -/
theorem parse_failure_exits_silently (ht : Nat → List Char) (f : Flags)
    (env : Env) (je : List Char) (hpf : env.listOutcome = .parseFail je) :
    (listPRs env.listOutcome).2.2 =
      some (("failed to parse PR list: ").toList ++ je) ∧
    (runMain ht f env).exitCode = 1 ∧
    (runMain ht f env).stderrChunks = [[]] ∧
    (runMain ht f env).stdoutChunks = [] := by
  refine ⟨?_, ?_, ?_, ?_⟩ <;> simp [runMain, listPRs, hpf]

/-- Witness for C7 at a concrete malformed-JSON run. -/
theorem parse_failure_exits_silently_witness :
    ((⟨.parseFail (("unexpected end of JSON input").toList), none, none, [], [], [], none, none⟩ : Env).listOutcome =
      .parseFail (("unexpected end of JSON input").toList)) ∧
    ((listPRs (⟨.parseFail (("unexpected end of JSON input").toList), none, none, [], [], [], none, none⟩ : Env).listOutcome).2.2 =
      some (("failed to parse PR list: ").toList ++ ("unexpected end of JSON input").toList) ∧
    (runMain sampleHT ⟨false, false⟩
        ⟨.parseFail (("unexpected end of JSON input").toList), none, none, [], [], [], none, none⟩).exitCode = 1 ∧
    (runMain sampleHT ⟨false, false⟩
        ⟨.parseFail (("unexpected end of JSON input").toList), none, none, [], [], [], none, none⟩).stderrChunks = [[]] ∧
    (runMain sampleHT ⟨false, false⟩
        ⟨.parseFail (("unexpected end of JSON input").toList), none, none, [], [], [], none, none⟩).stdoutChunks = []) :=
  ⟨rfl, parse_failure_exits_silently sampleHT ⟨false, false⟩
    ⟨.parseFail (("unexpected end of JSON input").toList), none, none, [], [], [], none, none⟩
    (("unexpected end of JSON input").toList) rfl⟩

/-- C9: cancelling the selection exits 1 with a message containing the
distinct text "selection cancelled", and no checkout or browse call is
issued. -/
theorem cancellation_distinct_error (ht : Nat → List Char) (f : Flags)
    (env : Env) (prs : List PullRequest)
    (hok : env.listOutcome = .ok prs) (hne : prs ≠ [])
    (hsel : env.selection = none) :
    (runMain ht f env).exitCode = 1 ∧
    (runMain ht f env).stderrChunks =
      [("Error: selection cancelled: ").toList ++ env.cancelMsg ++ ['\n']] ∧
    (("selection cancelled").toList <:+:
      (runMain ht f env).stderrChunks.getD 0 []) ∧
    (∀ n, Call.checkout n ∉ (runMain ht f env).calls) ∧
    (∀ n, Call.browse n ∉ (runMain ht f env).calls) := by
  have hE : prs.isEmpty = false := by
    cases prs
    · exact absurd rfl hne
    · rfl
  have hch : (runMain ht f env).stderrChunks =
      [("Error: selection cancelled: ").toList ++ env.cancelMsg ++ ['\n']] := by
    simp [runMain, listPRs, hok, hE, hsel, selectPRResult, errLine]
  refine ⟨?_, hch, ?_, ?_, ?_⟩
  · simp [runMain, listPRs, hok, hE, hsel, selectPRResult]
  · rw [hch]
    refine ⟨("Error: ").toList, (": ").toList ++ env.cancelMsg ++ ['\n'], ?_⟩
    simp
  · intro n
    simp [runMain, listPRs, hok, hE, hsel, selectPRResult]
  · intro n
    simp [runMain, listPRs, hok, hE, hsel, selectPRResult]

/-- Witness for C9 at a concrete cancelled run. -/
theorem cancellation_distinct_error_witness :
    ((⟨.ok [samplePR], none, none, ("user aborted").toList, [], [], none, none⟩ : Env).listOutcome =
        .ok [samplePR] ∧
      ([samplePR] : List PullRequest) ≠ [] ∧
      (⟨.ok [samplePR], none, none, ("user aborted").toList, [], [], none, none⟩ : Env).selection =
        none) ∧
    ((runMain sampleHT ⟨false, false⟩
        ⟨.ok [samplePR], none, none, ("user aborted").toList, [], [], none, none⟩).exitCode = 1 ∧
    (runMain sampleHT ⟨false, false⟩
        ⟨.ok [samplePR], none, none, ("user aborted").toList, [], [], none, none⟩).stderrChunks =
      [("Error: selection cancelled: ").toList ++
        (⟨.ok [samplePR], none, none, ("user aborted").toList, [], [], none, none⟩ : Env).cancelMsg ++
        ['\n']] ∧
    (("selection cancelled").toList <:+:
      (runMain sampleHT ⟨false, false⟩
        ⟨.ok [samplePR], none, none, ("user aborted").toList, [], [], none, none⟩).stderrChunks.getD 0 []) ∧
    (∀ n, Call.checkout n ∉
      (runMain sampleHT ⟨false, false⟩
        ⟨.ok [samplePR], none, none, ("user aborted").toList, [], [], none, none⟩).calls) ∧
    (∀ n, Call.browse n ∉
      (runMain sampleHT ⟨false, false⟩
        ⟨.ok [samplePR], none, none, ("user aborted").toList, [], [], none, none⟩).calls)) :=
  ⟨⟨rfl, by decide, rfl⟩,
    cancellation_distinct_error sampleHT ⟨false, false⟩
      ⟨.ok [samplePR], none, none, ("user aborted").toList, [], [], none, none⟩
      [samplePR] rfl (by decide) rfl⟩

end GhPo
